import Mathlib

/-!
Shallow embedding of the microphone-session-monitoring scripts
(`nano.py`, `mic_monitor.py`, `safari.py`) and proofs about their
session-tracking behaviour.

Conventions of the embedding:
* Python dictionaries keyed by app name or pid become association lists
  (`List (key × value)`), with insertion appending at the end (matching
  Python dict insertion order) and deletion filtering the key out.
* Python sets of pids become duplicate-free `List Nat` values
  (`List.dedup` plays the role of `set()` construction, `List.contains`
  of membership, and filtering by membership of set difference); Python
  set iteration order is unspecified, the list order stands in for it —
  only the multiset of emitted messages matters to the claims.
* Wall-clock times (`time.time()`) are integers (integer seconds; the
  claims only compare elapsed times against the integer thresholds of the
  code).
* External lookup capabilities (`ps` invocations, compiled regex tables)
  are injected as function parameters, mirroring the subprocess calls the
  scripts make; the scripts' own string tests (substring membership,
  lowercasing) are embedded concretely.
-/

namespace MicMon

/-- Check that the first list is a leading segment of the second. -/
def beginsWith : List Char → List Char → Bool
  | [], _ => true
  | _ :: _, [] => false
  | p :: ps, c :: cs => p == c && beginsWith ps cs

/-- Check that `pat` occurs as a contiguous sublist of `hay`. -/
def hasSubAux : List Char → List Char → Bool
  | [], pat => beginsWith pat []
  | c :: cs, pat => beginsWith pat (c :: cs) || hasSubAux cs pat

/-- Boolean substring test: `containsSub s pat` holds iff `pat` occurs in
`s`, mirroring Python's `pat in s`. -/
def containsSub (s pat : String) : Bool := hasSubAux s.data pat.data

/-- ASCII lowercasing, mirroring Python's `str.lower()` on the ASCII
strings these scripts handle. -/
def lower (s : String) : String := ⟨s.data.map Char.toLower⟩

/-- Decimal digits to a natural number, used by the embedded pid regexes. -/
def digitsToNat (ds : List Char) : Nat :=
  ds.foldl (fun n c => 10 * n + (c.toNat - 48)) 0

/-- Session-lifecycle notification as printed by `nano.py` (identified by
app name only; `nano.py`'s prints carry no pid). -/
inductive Notif where
  | started (app : String)
  | stopped (app : String)
deriving DecidableEq, Repr

/-- Session-lifecycle notification as printed by `mic_monitor.py` and
`safari.py`, which both include the pid in the printed line. -/
inductive PNotif where
  | started (pid : Nat) (app : String)
  | stopped (pid : Nat) (app : String)
deriving DecidableEq, Repr

/-! ## Embedding of `nano.py`

State: the global dict `active_apps : app_name -> timestamp`
(`nano.py` line 26). -/

/-- The state of `nano.py`: the `active_apps` dict, as an association
list in insertion order. -/
abbrev NanoState := List (String × ℤ)

/-- Membership test of an app name in the `active_apps` dict of
`nano.py` (`app_name in active_apps`). -/
def hasKey (a : String) (l : NanoState) : Bool := l.any (fun p => p.1 == a)

/-- Membership test of a pid in the `active_apps` dict of `safari.py`
(`pid in active_apps`). -/
def hasPid (pid : Nat) (l : List (Nat × String)) : Bool :=
  l.any (fun p => p.1 == pid)

/-- Python truthiness of the extracted `app_name` (`None` and `""` are
falsy). -/
def truthy : Option String → Bool
  | none => false
  | some a => a != ""

/-- Embedding of the per-line body of `monitor_microphone_logs`
(`nano.py` lines 79-111).  The regex-pattern loop of lines 92-98
(four compiled patterns plus the bundle-id table) is injected as the
`extract` parameter; everything else — the WebKit/GPU noise skip, the
microphone/audio-input line filter, the Safari special case, the
tccd/kernel/system exclusion, and the `active_apps` dedup — is embedded
concretely.  Returns the new state and the notifications printed. -/
def nanoProcessLine (extract : String → Option String) (line : String)
    (now : ℤ) (st : NanoState) : NanoState × List Notif :=
  if containsSub line "com.apple.WebKit" && containsSub line "GPU" then (st, [])
  else if !(containsSub (lower line) "microphone" ||
            containsSub (lower line) "audio input") then (st, [])
  else
    let app0 := extract line
    let app1 := if truthy app0 then app0
                else if containsSub line "Safari" then some "Safari" else app0
    match app1 with
    | none => (st, [])
    | some app =>
      if app != "" && !(["tccd", "kernel", "system"].contains app) then
        if hasKey app st then (st, [])
        else (st ++ [(app, now)], [Notif.started app])
      else (st, [])

/-- Embedding of one pass of `check_inactive_apps` (`nano.py` lines
118-130): collect every entry whose timestamp is more than 10 seconds
old, print a stop notification for each (in dict order), then delete
them. -/
def nanoSweep (now : ℤ) (st : NanoState) : NanoState × List Notif :=
  let expired := st.filter (fun p => decide (now - p.2 > 10))
  (st.filter (fun p => !(decide (now - p.2 > 10))),
   expired.map (fun p => Notif.stopped p.1))

/-- One operation applied to `nano.py`'s shared state: either one log
line arriving at a given wall-clock time, or one expiry pass at a given
time. -/
inductive NanoOp where
  | log (line : String) (now : ℤ)
  | sweep (now : ℤ)
deriving DecidableEq, Repr

/-- Dispatch one `NanoOp`. -/
def nanoStep (extract : String → Option String) :
    NanoOp → NanoState → NanoState × List Notif
  | NanoOp.log line now, st => nanoProcessLine extract line now st
  | NanoOp.sweep now, st => nanoSweep now st

/-- Run a sequence of operations, accumulating the notifications in
emission order. -/
def nanoRun (extract : String → Option String) :
    List NanoOp → NanoState → NanoState × List Notif
  | [], st => (st, [])
  | op :: ops, st =>
    let r := nanoStep extract op st
    let r' := nanoRun extract ops r.1
    (r'.1, r.2 ++ r'.2)

/-! ## Projections of notification streams -/

/-- Project a notification stream for `nano.py` onto one app:
`true` for a start, `false` for a stop; other apps dropped. -/
def projApp (app : String) (out : List Notif) : List Bool :=
  out.filterMap fun n =>
    match n with
    | Notif.started a => if a = app then some true else none
    | Notif.stopped a => if a = app then some false else none

/-- Project a pid-carrying notification stream onto one app. -/
def projAppP (app : String) (out : List PNotif) : List Bool :=
  out.filterMap fun n =>
    match n with
    | PNotif.started _ a => if a = app then some true else none
    | PNotif.stopped _ a => if a = app then some false else none

/-- Given the kind of the last notification already emitted for the
subject (`true` = start), check that the list extends it without ever
emitting two starts with no stop between. -/
def okAfter : Bool → List Bool → Bool
  | _, [] => true
  | prev, b :: rest => if prev && b then false else okAfter b rest

/-- The projected stream of one subject never contains two start
notifications without a stop notification between them. -/
def noTwoStarts (l : List Bool) : Bool := okAfter false l

/-! ## Embedding of `mic_monitor.py`

The injected lookup `procInfo : Nat → String × String` stands for
`get_process_info` (lines 30-45): the `ps`-reported name and full
command path of a pid. -/

/-- The fixed system-process markers of `is_system_process`
(`mic_monitor.py` lines 49-56). -/
def system_indicators : List String :=
  ["/System/Library/", "WebKit.GPU", "WebKit.WebContent",
   "com.apple.WebKit", "coreaudiod", "audiomxd"]

/-- Embedding of `is_system_process` (`mic_monitor.py` lines 47-57). -/
def is_system_process (path : String) : Bool :=
  system_indicators.any (fun ind => containsSub path ind)

/-- The `app_map` dict of `get_user_friendly_name` (`mic_monitor.py`
lines 62-72), in insertion order. -/
def app_map : List (String × String) :=
  [("Google Chrome", "Google Chrome"), ("firefox", "Firefox"),
   ("Safari", "Safari"), ("zoom.us", "Zoom"), ("Slack", "Slack"),
   ("Discord", "Discord"), ("Skype", "Skype"),
   ("Microsoft Teams", "Microsoft Teams"), ("FaceTime", "FaceTime")]

/-- Embedding of `get_user_friendly_name` (`mic_monitor.py` lines
59-78): first map entry whose lowercased key occurs in the lowercased
name or path wins, else the raw name. -/
def get_user_friendly_name (name path : String) : String :=
  match app_map.find? (fun p =>
      containsSub (lower name) (lower p.1) ||
      containsSub (lower path) (lower p.1)) with
  | some p => p.2
  | none => name

/-- One message of `mic_monitor.py`'s `log_queue`: pid, resolved app
name, and the `type` field (the scripts use `access`, `started`,
`stopped`). -/
structure QueueMsg where
  pid : Nat
  app : String
  kind : String
deriving DecidableEq, Repr

/-- Try to match the regex `PID\s*=\s*(\d+)` at the head of the
character list. -/
def matchPidAt (cs : List Char) : Option Nat :=
  match cs with
  | 'P' :: 'I' :: 'D' :: rest =>
    match rest.dropWhile (fun c => c.isWhitespace) with
    | '=' :: rest2 =>
      let ds := (rest2.dropWhile (fun c => c.isWhitespace)).takeWhile
        (fun c => c.isDigit)
      if ds.isEmpty then none else some (digitsToNat ds)
    | _ => none
  | _ => none

/-- Leftmost match of the regex `PID\s*=\s*(\d+)` (the `pid_pattern` of
`mic_monitor.py` line 89), as `re.search` finds it. -/
def findPid : List Char → Option Nat
  | [] => none
  | c :: cs =>
    match matchPidAt (c :: cs) with
    | some n => some n
    | none => findPid cs

/-- Embedding of the per-line body of `monitor_system_logs`
(`mic_monitor.py` lines 91-113): a line with a `PID = n` match and a
microphone/audio mention resolves the pid; system processes are
skipped; otherwise one `access` message is queued. -/
def micLogLine (procInfo : Nat → String × String) (line : String) :
    Option QueueMsg :=
  match findPid line.data with
  | none => none
  | some pid =>
    if containsSub (lower line) "microphone" ||
       containsSub (lower line) "audio" then
      let info := procInfo pid
      if is_system_process info.2 then none
      else some ⟨pid, get_user_friendly_name info.1 info.2, "access"⟩
    else none

/-- Embedding of the display branch of `display_logs` (`mic_monitor.py`
lines 179-184): `started`/`access` messages print a start line,
`stopped` messages print a stop line, anything else prints nothing. -/
def displayMsg (m : QueueMsg) : Option PNotif :=
  if m.kind = "started" ∨ m.kind = "access" then some (PNotif.started m.pid m.app)
  else if m.kind = "stopped" then some (PNotif.stopped m.pid m.app)
  else none

/-- The notifications printed for a sequence of log lines flowing
through `monitor_system_logs` into `display_logs`. -/
def micLogRun (procInfo : Nat → String × String) (lines : List String) :
    List PNotif :=
  (lines.filterMap (micLogLine procInfo)).filterMap displayMsg

/-- Embedding of the snapshot construction of `monitor_audio_devices`
(`mic_monitor.py` lines 126-135): the set of pids parsed from the
`lsof` output, with system processes filtered out. -/
def pollCurrent (procInfo : Nat → String × String) (rawPids : List Nat) :
    List Nat :=
  (rawPids.filter (fun pid => !is_system_process (procInfo pid).2)).dedup

/-- Embedding of the diff phase of `monitor_audio_devices`
(`mic_monitor.py` lines 137-161): one `started` message per pid newly
present (`current_pids - last_active_pids`), then one `stopped` message
per pid that disappeared (`last_active_pids - current_pids`). -/
def pollDiff (procInfo : Nat → String × String) (last current : List Nat) :
    List QueueMsg :=
  (current.filter (fun pid => !(last.contains pid))).map (fun pid =>
    let info := procInfo pid
    ⟨pid, get_user_friendly_name info.1 info.2, "started"⟩) ++
  (last.filter (fun pid => !(current.contains pid))).map (fun pid =>
    let info := procInfo pid
    ⟨pid, get_user_friendly_name info.1 info.2, "stopped"⟩)

/-- Run `monitor_audio_devices` over a sequence of raw `lsof` snapshots
starting from the given `last_active_pids` set, accumulating all queued
messages. -/
def micPollRun (procInfo : Nat → String × String) :
    List (List Nat) → List Nat → List Nat × List QueueMsg
  | [], last => (last, [])
  | snap :: rest, last =>
    let current := pollCurrent procInfo snap
    let msgs := pollDiff procInfo last current
    let r := micPollRun procInfo rest current
    (r.1, msgs ++ r.2)

/-! ## Embedding of `safari.py`

Two injected lookups stand for the `ps` invocations: `psComm pidStr`
for `ps -p pidStr -o comm=` (the stripped process name, `""` when the
pid is gone) and `psPpid pidStr` for `ps -p pidStr -o ppid=` (the
stripped parent pid, `""` when absent). -/

/-- Embedding of `get_parent_app` (`safari.py` lines 31-55): one parent
lookup; the parent resolves only if its name marks a known browser. -/
def get_parent_app (psComm psPpid : String → String) (pid : Nat) :
    Option (String × String) :=
  let ppid := psPpid (toString pid)
  if ppid != "" then
    let parent_name := psComm ppid
    if containsSub parent_name "Safari" then some ("Safari", ppid)
    else if containsSub parent_name "Google Chrome" then
      some ("Google Chrome", ppid)
    else if containsSub (lower parent_name) "firefox" then
      some ("Firefox", ppid)
    else none
  else none

/-- The `app_mapping` dict of `get_app_name_for_process` (`safari.py`
lines 60-70), in insertion order.  The keys are matched verbatim
against the lowercased process name, exactly as the code does. -/
def app_mapping : List (String × String) :=
  [("zoom.us", "Zoom"), ("Slack", "Slack"), ("Discord", "Discord"),
   ("Skype", "Skype"), ("teams", "Microsoft Teams"),
   ("facetime", "FaceTime"), ("whatsapp", "WhatsApp"),
   ("telegram", "Telegram"), ("signal", "Signal")]

/-- Embedding of `get_app_name_for_process` (`safari.py` lines 57-92):
direct mapping first, then the WebKit branch with a single
parent-process hop falling back to Safari, then the Chrome check, then
the raw process name. -/
def get_app_name_for_process (psComm psPpid : String → String)
    (pid : Nat) (process_name : String) : String :=
  let process_lower := lower process_name
  match app_mapping.find? (fun p => containsSub process_lower p.1) with
  | some p => p.2
  | none =>
    if containsSub process_lower "webkit" then
      match get_parent_app psComm psPpid pid with
      | some r => r.1
      | none => "Safari"
    else if containsSub process_lower "chrome" then "Google Chrome"
    else process_name

/-- The state of `safari.py`: the shared `active_apps` dict
(pid -> app name, line 29) and the poller's `last_check` pid set
(line 143). -/
structure SafariState where
  active_apps : List (Nat × String)
  last_check : List Nat
deriving DecidableEq, Repr

/-- Python dict assignment `active_apps[pid] = app`: overwrite in place
if present, else append. -/
def dictSet (st : List (Nat × String)) (pid : Nat) (app : String) :
    List (Nat × String) :=
  if hasPid pid st then
    st.map (fun p => if p.1 == pid then (pid, app) else p)
  else st ++ [(pid, app)]

/-- Try to match the regex `pid[:\s]+(\d+)` (case-insensitive) at the
head of the character list. -/
def matchSafariPidAt (cs : List Char) : Option Nat :=
  match cs with
  | c1 :: c2 :: c3 :: rest =>
    if c1.toLower == 'p' && c2.toLower == 'i' && c3.toLower == 'd' then
      let seps := rest.takeWhile (fun c => c == ':' || c.isWhitespace)
      if seps.isEmpty then none
      else
        let ds := (rest.dropWhile (fun c => c == ':' || c.isWhitespace)).takeWhile
          (fun c => c.isDigit)
        if ds.isEmpty then none else some (digitsToNat ds)
    else none
  | _ => none

/-- Leftmost match of the regex `pid[:\s]+(\d+)` (`safari.py` line 118),
as `re.search` finds it. -/
def findSafariPid : List Char → Option Nat
  | [] => none
  | c :: cs =>
    match matchSafariPidAt (c :: cs) with
    | some n => some n
    | none => findSafariPid cs

/-- Embedding of the per-line body of `monitor_microphone_access`
(`safari.py` lines 111-134): a granted/accessing line with a pid prints
an access (start-kind) notification and records the pid in
`active_apps`, unconditionally. -/
def safariLogStep (psComm psPpid : String → String) (line : String)
    (st : SafariState) : SafariState × List PNotif :=
  if containsSub (lower line) "granted" ||
     containsSub (lower line) "accessing" then
    match findSafariPid line.data with
    | none => (st, [])
    | some pid =>
      let process_name := psComm (toString pid)
      if process_name != "" then
        let app := get_app_name_for_process psComm psPpid pid process_name
        (⟨dictSet st.active_apps pid app, st.last_check⟩,
         [PNotif.started pid app])
      else (st, [])
  else (st, [])

/-- Embedding of the new-pid branch of `monitor_audio_activity`
(`safari.py` lines 173-189) for one pid: only pids not already in
`active_apps` whose process name resolves produce a start notification
and a new session entry. -/
def safariNewPid (psComm psPpid : String → String) (pid : Nat)
    (st : List (Nat × String)) : List (Nat × String) × List PNotif :=
  if hasPid pid st then (st, [])
  else
    let process_name := psComm (toString pid)
    if process_name != "" then
      let app := get_app_name_for_process psComm psPpid pid process_name
      (st ++ [(pid, app)], [PNotif.started pid app])
    else (st, [])

/-- Embedding of the stopped-pid branch of `monitor_audio_activity`
(`safari.py` lines 192-201) for one pid: a stop notification is printed
and the session removed only if the pid has an active entry. -/
def safariStopPid (pid : Nat) (st : List (Nat × String)) :
    List (Nat × String) × List PNotif :=
  match st.find? (fun p => p.1 == pid) with
  | some p => (st.filter (fun q => !(q.1 == pid)), [PNotif.stopped pid p.2])
  | none => (st, [])

/-- Fold a per-pid handler over a pid list, accumulating notifications. -/
def foldPids (f : Nat → List (Nat × String) → List (Nat × String) × List PNotif) :
    List Nat → List (Nat × String) → List (Nat × String) × List PNotif
  | [], st => (st, [])
  | pid :: rest, st =>
    let r := f pid st
    let r' := foldPids f rest r.1
    (r'.1, r.2 ++ r'.2)

/-- Embedding of one poll iteration of `monitor_audio_activity`
(`safari.py` lines 159-203): build the current snapshot set from the
raw audio pids, handle each newly-seen pid, then each disappeared pid,
then replace `last_check` with the current snapshot. -/
def safariPollStep (psComm psPpid : String → String) (rawPids : List Nat)
    (st : SafariState) : SafariState × List PNotif :=
  let current := rawPids.dedup
  let r1 := foldPids (safariNewPid psComm psPpid)
    (current.filter (fun pid => !(st.last_check.contains pid))) st.active_apps
  let r2 := foldPids safariStopPid
    (st.last_check.filter (fun pid => !(current.contains pid))) r1.1
  (⟨r2.1, current⟩, r1.2 ++ r2.2)

/-- One operation applied to `safari.py`'s shared state: a log line or
one poll snapshot (given as the raw pid list parsed from `lsof`). -/
inductive SafariOp where
  | log (line : String)
  | poll (rawPids : List Nat)
deriving DecidableEq, Repr

/-- Dispatch one `SafariOp`. -/
def safariStep (psComm psPpid : String → String) :
    SafariOp → SafariState → SafariState × List PNotif
  | SafariOp.log line, st => safariLogStep psComm psPpid line st
  | SafariOp.poll rawPids, st => safariPollStep psComm psPpid rawPids st

/-- Run a sequence of operations over `safari.py`'s state, accumulating
the notifications in emission order. -/
def safariRun (psComm psPpid : String → String) :
    List SafariOp → SafariState → SafariState × List PNotif
  | [], st => (st, [])
  | op :: ops, st =>
    let r := safariStep psComm psPpid op st
    let r' := safariRun psComm psPpid ops r.1
    (r'.1, r.2 ++ r'.2)

/-- Whether a `SafariOp` is a poll snapshot containing the given pid. -/
def opMentionsPid (pid : Nat) : SafariOp → Bool
  | SafariOp.log _ => false
  | SafariOp.poll s => s.contains pid

/-! ## Predicates on notification streams -/

/-- Whether a `nano.py` notification is a start for the given app. -/
def isStart (app : String) : Notif → Bool
  | Notif.started a => a == app
  | Notif.stopped _ => false

/-- Whether a `nano.py` notification is a stop for the given app. -/
def isStop (app : String) : Notif → Bool
  | Notif.stopped a => a == app
  | Notif.started _ => false

/-- Whether a queue message is a `started` message for the given pid. -/
def isStartedFor (pid : Nat) (m : QueueMsg) : Bool :=
  m.pid == pid && m.kind == "started"

/-- Whether a queue message is a `stopped` message for the given pid. -/
def isStoppedFor (pid : Nat) (m : QueueMsg) : Bool :=
  m.pid == pid && m.kind == "stopped"

/-- Whether a queue message mentions the given pid. -/
def mentionsPid (pid : Nat) (m : QueueMsg) : Bool := m.pid == pid

/-- Whether a pid-carrying notification is a stop for the given pid. -/
def isStopFor (pid : Nat) : PNotif → Bool
  | PNotif.stopped p _ => p == pid
  | PNotif.started _ _ => false

/-- The last element of a projected stream, or the given previous flag
when the stream is empty. -/
def lastFlag (prev : Bool) (l : List Bool) : Bool := l.getLast?.getD prev

/-! ## Concrete scenario data used by evaluation theorems and witnesses -/

/-- An extraction table recognising Zoom, standing for the compiled
regex patterns of `nano.py`. -/
def extractZoom : String → Option String :=
  fun l => if containsSub l "Zoom" then some "Zoom" else none

/-- A log line reporting Zoom using the microphone. -/
def zoomLine : String := "Zoom is using the microphone"

/-- A process-info lookup resolving every pid to the Zoom executable. -/
def procInfoZoom : Nat → String × String :=
  fun _ => ("zoom.us", "/Applications/zoom.us.app")

/-- A process-info lookup resolving every pid to a system framework
path. -/
def procInfoSystem : Nat → String × String :=
  fun _ => ("coreaudiod", "/System/Library/CoreAudio/coreaudiod")

/-- A CoreMedia-style log line carrying `PID = 100`. -/
def micPidLine : String := "PID = 100 microphone active"

/-- A `ps -o comm=` lookup resolving every pid to `launchd`. -/
def psCommLaunchd : String → String := fun _ => "launchd"

/-- A `ps -o ppid=` lookup resolving every pid to parent `1`. -/
def psPpidOne : String → String := fun _ => "1"

/-- A `ps -o comm=` lookup resolving every pid to `zoom.us`. -/
def psCommZoom : String → String := fun _ => "zoom.us"

/-- A `ps -o ppid=` lookup that always fails (empty output). -/
def psPpidNone : String → String := fun _ => ""

/-! ## Theorems -/

/-- C2 (code slip in `nano.py`): start-like events for an already-active
subject do not advance its recorded timestamp — `active_apps[app_name]`
is assigned only inside the `app_name not in active_apps` branch
(line 111) — so the expiry pass stops a subject 10 seconds after its
session *start* even though further events kept arriving with gaps well
below the threshold.  Here Zoom events arrive at times 0, 5 and 9
(gaps of 5 and 4 seconds, under the 10-second threshold), yet the sweep
at time 11 emits a stop notification, contradicting the claim that
such a subject is never expired. -/
theorem C2_no_refresh_eval :
    nanoRun extractZoom
      [NanoOp.log zoomLine 0, NanoOp.log zoomLine 5, NanoOp.log zoomLine 9,
       NanoOp.sweep 11] [] =
    ([], [Notif.started "Zoom", Notif.stopped "Zoom"]) := by decide

/-- C5: a stop signal for a subject with no active session is a no-op.
First conjunct (`safari.py` lines 193-201): a disappeared pid that has
no `active_apps` entry changes nothing and prints nothing.  Second
conjunct (`mic_monitor.py` lines 150-161): the poll diff only ever
generates a `stopped` message for a pid that was in the previous
snapshot, so a stop for an absent subject cannot arise there. -/
theorem C5_stop_absent_noop
    (st : List (Nat × String)) (pid : Nat)
    (procInfo : Nat → String × String) (last current : List Nat)
    (m : QueueMsg) :
    (st.find? (fun p => p.1 == pid) = none →
      safariStopPid pid st = (st, [])) ∧
    (m ∈ pollDiff procInfo last current → m.kind = "stopped" →
      m.pid ∈ last) := by
  constructor
  · intro h
    simp [safariStopPid, h]
  · intro hm hk
    rcases List.mem_append.mp hm with hs | hs
    · rcases List.mem_map.mp hs with ⟨q, _, hq⟩
      rw [← hq] at hk
      simp at hk
    · rcases List.mem_map.mp hs with ⟨q, hqmem, hq⟩
      have : m.pid = q := by rw [← hq]
      rw [this]
      exact (List.mem_filter.mp hqmem).1

/-- C5 witness: removing pid 5 from an empty session table is a no-op. -/
theorem C5_witness : safariStopPid 5 [] = ([], []) :=
  (C5_stop_absent_noop [] 5 procInfoZoom [] [] ⟨0, "", ""⟩).1 (by decide)

/-- C7: an observation that fails classification is dropped silently.
First conjunct (`nano.py` lines 88-111): when no extraction pattern
matches (and the Safari special case does not fire), the state and the
notification stream are unchanged.  Second conjunct (`mic_monitor.py`
lines 96-97): a log line without a pid match queues nothing. -/
theorem C7_classification_miss_noop
    (extract : String → Option String) (line : String) (now : ℤ)
    (st : NanoState) (procInfo : Nat → String × String) :
    (extract line = none → containsSub line "Safari" = false →
      nanoProcessLine extract line now st = (st, [])) ∧
    (findPid line.data = none → micLogLine procInfo line = none) := by
  constructor
  · intro h1 h2
    simp only [nanoProcessLine, h1, h2, truthy]
    split
    · rfl
    · split
      · rfl
      · simp
  · intro h
    simp [micLogLine, h]

/-- C7 witness: a line matching nothing leaves the tracker untouched on
both log paths. -/
theorem C7_witness :
    nanoProcessLine (fun _ => none) "hello" 0 [] = ([], []) ∧
    micLogLine procInfoZoom "hello" = none :=
  ⟨(C7_classification_miss_noop (fun _ => none) "hello" 0 [] procInfoZoom).1
      rfl (by decide),
   (C7_classification_miss_noop (fun _ => none) "hello" 0 [] procInfoZoom).2
      (by decide)⟩

/-- Helper for C9: `get_parent_app` consults the process table at one
hop only — its result is determined by the parent pid of the given pid
and the name of that parent. -/
theorem get_parent_app_one_hop
    (psComm psPpid psComm2 psPpid2 : String → String) (pid : Nat)
    (h1 : psPpid (toString pid) = psPpid2 (toString pid))
    (h2 : psComm (psPpid (toString pid)) = psComm2 (psPpid (toString pid))) :
    get_parent_app psComm psPpid pid = get_parent_app psComm2 psPpid2 pid := by
  simp only [get_parent_app, ← h1, ← h2]

/-- C9: resolving an engine/helper descriptor (name containing a
web-rendering-engine marker) with no direct mapping performs exactly
one parent-process hop (`safari.py` lines 79-85): the result is
insensitive to anything beyond the parent pid of the subject and that
parent's name, and if that single hop does not resolve to a known
browser the descriptor resolves to Safari. -/
theorem C9_webkit_one_hop
    (psComm psPpid psComm2 psPpid2 : String → String) (pid : Nat)
    (name : String)
    (hwk : containsSub (lower name) "webkit" = true)
    (hmap : app_mapping.find? (fun p => containsSub (lower name) p.1) = none) :
    (get_parent_app psComm psPpid pid = none →
      get_app_name_for_process psComm psPpid pid name = "Safari") ∧
    (psPpid (toString pid) = psPpid2 (toString pid) →
     psComm (psPpid (toString pid)) = psComm2 (psPpid (toString pid)) →
     get_app_name_for_process psComm psPpid pid name =
       get_app_name_for_process psComm2 psPpid2 pid name) := by
  constructor
  · intro hpar
    simp only [get_app_name_for_process, hmap, hwk, hpar, if_true]
  · intro h1 h2
    simp only [get_app_name_for_process, hmap, hwk, if_true,
      get_parent_app_one_hop psComm psPpid psComm2 psPpid2 pid h1 h2]

/-- C9 witness: a WebKit helper whose parent (`launchd`) is not a known
browser resolves to Safari after the single hop. -/
theorem C9_witness :
    get_app_name_for_process psCommLaunchd psPpidOne 7
      "com.apple.WebKit.WebContent" = "Safari" :=
  (C9_webkit_one_hop psCommLaunchd psPpidOne psCommLaunchd psPpidOne 7
    "com.apple.WebKit.WebContent" (by decide) (by decide)).1 (by decide)

/-- Helper: a key absent from an association list is absent from any
filtering of it. -/
theorem hasKey_filter_false (a : String) (q : String × ℤ → Bool)
    (l : NanoState) (h : hasKey a l = false) :
    hasKey a (l.filter q) = false := by
  simp only [hasKey, List.any_eq_false] at h ⊢
  intro p hp
  exact h p (List.mem_of_mem_filter hp)

/-- Helper: in an association list with duplicate-free keys, any entry
sharing the key of a member equals that member. -/
theorem key_unique (l : NanoState) (hnd : (l.map Prod.fst).Nodup)
    (a : String) (t : ℤ) (hmem : (a, t) ∈ l) :
    ∀ p ∈ l, p.1 = a → p = (a, t) := by
  induction l with
  | nil => simp at hmem
  | cons q l ih =>
    simp only [List.map_cons, List.nodup_cons] at hnd
    intro p hp hpa
    rcases List.mem_cons.mp hmem with hq | hq
    · rcases List.mem_cons.mp hp with hpq | hpq
      · rw [hpq, ← hq]
      · exfalso
        apply hnd.1
        have hqa : q.1 = a := by rw [← hq]
        rw [hqa, ← hpa]
        exact List.mem_map_of_mem Prod.fst hpq
    · rcases List.mem_cons.mp hp with hpq | hpq
      · exfalso
        apply hnd.1
        rw [← hpq, hpa]
        exact List.mem_map_of_mem Prod.fst hq
      · exact ih hnd.2 hq p hpq hpa

/-- Helper: the number of stop notifications for an app emitted by one
sweep equals the number of expired entries carrying that key. -/
theorem sweep_stops_count (now : ℤ) (st : NanoState) (app : String) :
    (nanoSweep now st).2.countP (isStop app) =
      st.countP (fun p => p.1 == app && decide (now - p.2 > 10)) := by
  simp only [nanoSweep, List.countP_map, List.countP_filter]
  apply List.countP_congr
  intro p _
  simp [isStop, Function.comp]

/-- Helper: a sweep emits no stop notification for an app that has no
active entry. -/
theorem sweep_no_stop_of_absent (now : ℤ) (st : NanoState) (app : String)
    (h : hasKey app st = false) :
    (nanoSweep now st).2.countP (isStop app) = 0 := by
  rw [sweep_stops_count]
  apply List.countP_eq_zero.mpr
  intro p hp
  simp only [hasKey, List.any_eq_false] at h
  intro hc
  rw [Bool.and_eq_true] at hc
  exact h p hp hc.1

/-- C3: once a subject's recorded timestamp is more than the 10-second
inactivity threshold in the past (threshold plus any positive margin),
the expiry pass of `check_inactive_apps` (`nano.py` lines 118-130)
emits exactly one stop notification for it and removes it from
`active_apps`; sweeping the resulting state again emits no further stop
for that subject, so no second stop is ever emitted for the session. -/
theorem C3_sweep_expires_once (st : NanoState) (app : String) (t now : ℤ)
    (hnd : (st.map Prod.fst).Nodup) (hmem : (app, t) ∈ st)
    (hexp : t + 10 < now) :
    (nanoSweep now st).2.countP (isStop app) = 1 ∧
    hasKey app (nanoSweep now st).1 = false ∧
    ∀ now2 : ℤ,
      (nanoSweep now2 (nanoSweep now st).1).2.countP (isStop app) = 0 := by
  have hukey := key_unique st hnd app t hmem
  have habs : hasKey app (nanoSweep now st).1 = false := by
    simp only [nanoSweep, hasKey, List.any_eq_false]
    intro p hp
    rcases List.mem_filter.mp hp with ⟨hpl, hpq⟩
    intro hbeq
    have hpa : p = (app, t) := hukey p hpl (by simpa using hbeq)
    rw [hpa] at hpq
    simp only [Bool.not_eq_eq_eq_not, Bool.not_true, decide_eq_false_iff_not,
      not_lt] at hpq
    omega
  refine ⟨?_, habs, fun now2 => sweep_no_stop_of_absent now2 _ app habs⟩
  rw [sweep_stops_count]
  clear habs
  induction st with
  | nil => simp at hmem
  | cons q l ih =>
    simp only [List.map_cons, List.nodup_cons] at hnd
    rcases List.mem_cons.mp hmem with hq | hq
    · rw [List.countP_cons_of_pos]
      · have : l.countP (fun p => p.1 == app && decide (now - p.2 > 10)) = 0 := by
          apply List.countP_eq_zero.mpr
          intro p hp
          simp only [Bool.and_eq_true, beq_iff_eq, not_and]
          intro hpa _
          apply hnd.1
          rw [← hq]
          simp only [← hpa]
          exact List.mem_map_of_mem Prod.fst hp
        omega
      · rw [← hq]
        simp only [Bool.and_eq_true, beq_iff_eq, decide_eq_true_eq, true_and]
        omega
    · rw [List.countP_cons_of_neg]
      · exact ih hnd.2 hq (fun p hp => hukey p (List.mem_cons_of_mem q hp))
      · simp only [Bool.and_eq_true, beq_iff_eq, not_and]
        intro hqa _
        apply hnd.1
        rw [hqa]
        exact List.mem_map_of_mem Prod.fst hq

/-- C3 witness: a Zoom session last seen at time 0 is expired by the
sweep at time 11 with exactly one stop, and is gone afterwards. -/
theorem C3_witness :
    (nanoSweep 11 [("Zoom", 0)]).2.countP (isStop "Zoom") = 1 ∧
    hasKey "Zoom" (nanoSweep 11 [("Zoom", 0)]).1 = false :=
  ⟨(C3_sweep_expires_once [("Zoom", 0)] "Zoom" 0 11 (by decide) (by decide)
      (by decide)).1,
   (C3_sweep_expires_once [("Zoom", 0)] "Zoom" 0 11 (by decide) (by decide)
      (by decide)).2.1⟩

/-- Helper: in a duplicate-free pid list, a filtered sublist contains a
pid exactly once when the pid is a member passing the filter, and never
otherwise. -/
theorem countP_key_filter (l : List Nat) (hnd : l.Nodup) (pid : Nat)
    (q : Nat → Bool) :
    (l.filter q).countP (fun x => x == pid) =
      if pid ∈ l ∧ q pid = true then 1 else 0 := by
  rw [← List.count_eq_countP]
  by_cases hmem : pid ∈ l.filter q
  · rw [List.count_eq_one_of_mem (hnd.filter q) hmem]
    rw [List.mem_filter] at hmem
    rw [if_pos hmem]
  · rw [List.count_eq_zero_of_not_mem hmem]
    rw [List.mem_filter] at hmem
    rw [if_neg hmem]

/-- C6: the poll diff of `mic_monitor.py` (`monitor_audio_devices`,
lines 137-163) has exact set-difference semantics: for duplicate-free
snapshots it queues exactly one `started` message per pid in the new
snapshot but not the old, exactly one `stopped` message per pid in the
old snapshot but not the new, and no message at all for a pid present
in both. -/
theorem C6_poll_diff_set_semantics (procInfo : Nat → String × String)
    (last current : List Nat) (pid : Nat)
    (hndl : last.Nodup) (hndc : current.Nodup) :
    ((pollDiff procInfo last current).countP (isStartedFor pid) =
      if pid ∈ current ∧ pid ∉ last then 1 else 0) ∧
    ((pollDiff procInfo last current).countP (isStoppedFor pid) =
      if pid ∈ last ∧ pid ∉ current then 1 else 0) ∧
    (pid ∈ last → pid ∈ current →
      (pollDiff procInfo last current).countP (mentionsPid pid) = 0) := by
  refine ⟨?_, ?_, ?_⟩
  · simp only [pollDiff, List.countP_append, List.countP_map]
    have h1 : (current.filter (fun x => !(last.contains x))).countP
        ((isStartedFor pid) ∘ (fun x =>
          let info := procInfo x
          ({pid := x, app := get_user_friendly_name info.1 info.2,
            kind := "started"} : QueueMsg))) =
        (current.filter (fun x => !(last.contains x))).countP
          (fun x => x == pid) := by
      apply List.countP_congr
      intro x _
      simp [isStartedFor, Function.comp]
    have h2 : (last.filter (fun x => !(current.contains x))).countP
        ((isStartedFor pid) ∘ (fun x =>
          let info := procInfo x
          ({pid := x, app := get_user_friendly_name info.1 info.2,
            kind := "stopped"} : QueueMsg))) = 0 := by
      apply List.countP_eq_zero.mpr
      intro x _
      simp [isStartedFor, Function.comp]
    rw [h1, h2, countP_key_filter current hndc pid]
    simp [List.contains, List.elem_eq_mem]
  · simp only [pollDiff, List.countP_append, List.countP_map]
    have h1 : (current.filter (fun x => !(last.contains x))).countP
        ((isStoppedFor pid) ∘ (fun x =>
          let info := procInfo x
          ({pid := x, app := get_user_friendly_name info.1 info.2,
            kind := "started"} : QueueMsg))) = 0 := by
      apply List.countP_eq_zero.mpr
      intro x _
      simp [isStoppedFor, Function.comp]
    have h2 : (last.filter (fun x => !(current.contains x))).countP
        ((isStoppedFor pid) ∘ (fun x =>
          let info := procInfo x
          ({pid := x, app := get_user_friendly_name info.1 info.2,
            kind := "stopped"} : QueueMsg))) =
        (last.filter (fun x => !(current.contains x))).countP
          (fun x => x == pid) := by
      apply List.countP_congr
      intro x _
      simp [isStoppedFor, Function.comp]
    rw [h1, h2, countP_key_filter last hndl pid]
    simp [List.contains, List.elem_eq_mem]
  · intro hl hc
    simp only [pollDiff, List.countP_append, List.countP_map]
    have h1 : (current.filter (fun x => !(last.contains x))).countP
        ((mentionsPid pid) ∘ (fun x =>
          let info := procInfo x
          ({pid := x, app := get_user_friendly_name info.1 info.2,
            kind := "started"} : QueueMsg))) = 0 := by
      apply List.countP_eq_zero.mpr
      intro x hx
      rcases List.mem_filter.mp hx with ⟨_, hxq⟩
      simp only [mentionsPid, Function.comp, beq_iff_eq]
      intro hxp
      rw [hxp] at hxq
      simp [List.contains, List.elem_eq_mem, hl] at hxq
    have h2 : (last.filter (fun x => !(current.contains x))).countP
        ((mentionsPid pid) ∘ (fun x =>
          let info := procInfo x
          ({pid := x, app := get_user_friendly_name info.1 info.2,
            kind := "stopped"} : QueueMsg))) = 0 := by
      apply List.countP_eq_zero.mpr
      intro x hx
      rcases List.mem_filter.mp hx with ⟨_, hxq⟩
      simp only [mentionsPid, Function.comp, beq_iff_eq]
      intro hxp
      rw [hxp] at hxq
      simp [List.contains, List.elem_eq_mem, hc] at hxq
    rw [h1, h2]

/-- C6 witness: a pid present in both snapshots produces no queue
message at all. -/
theorem C6_witness :
    (pollDiff procInfoZoom [1, 2] [2, 1]).countP (mentionsPid 1) = 0 :=
  (C6_poll_diff_set_semantics procInfoZoom [1, 2] [2, 1] 1 (by decide)
    (by decide)).2.2 (by decide) (by decide)

/-- Helper: running a concatenation of operation lists is running them
sequentially, concatenating the outputs. -/
theorem nanoRun_append (extract : String → Option String)
    (l1 l2 : List NanoOp) (st : NanoState) :
    nanoRun extract (l1 ++ l2) st =
      ((nanoRun extract l2 (nanoRun extract l1 st).1).1,
       (nanoRun extract l1 st).2 ++
         (nanoRun extract l2 (nanoRun extract l1 st).1).2) := by
  induction l1 generalizing st with
  | nil => simp [nanoRun]
  | cons op ops ih =>
    simp only [List.cons_append, nanoRun, List.append_eq]
    rw [ih]
    simp [List.append_assoc]

/-- Helper: a qualifying log line for an app with no active session
creates the session and prints exactly one start notification
(`nano.py` lines 108-111). -/
theorem nanoProcessLine_starts (extract : String → Option String)
    (line app : String) (now : ℤ) (st : NanoState)
    (hext : extract line = some app) (happ : (app != "") = true)
    (hban : (["tccd", "kernel", "system"].contains app) = false)
    (hwk : (containsSub line "com.apple.WebKit" &&
            containsSub line "GPU") = false)
    (hmic : (containsSub (lower line) "microphone" ||
             containsSub (lower line) "audio input") = true)
    (habs : hasKey app st = false) :
    nanoProcessLine extract line now st =
      (st ++ [(app, now)], [Notif.started app]) := by
  have hb : ¬app = "tccd" ∧ ¬app = "kernel" ∧ ¬app = "system" := by
    simpa using hban
  simp [nanoProcessLine, hwk, hmic, hext, truthy, happ, habs, hb.1,
    hb.2.1, hb.2.2]

/-- Helper: a qualifying log line for an app that already has an active
session leaves the state unchanged and prints nothing (`nano.py` line
108). -/
theorem nanoProcessLine_active_noop (extract : String → Option String)
    (line app : String) (now : ℤ) (st : NanoState)
    (hext : extract line = some app) (happ : (app != "") = true)
    (hban : (["tccd", "kernel", "system"].contains app) = false)
    (hwk : (containsSub line "com.apple.WebKit" &&
            containsSub line "GPU") = false)
    (hmic : (containsSub (lower line) "microphone" ||
             containsSub (lower line) "audio input") = true)
    (hact : hasKey app st = true) :
    nanoProcessLine extract line now st = (st, []) := by
  have hb : ¬app = "tccd" ∧ ¬app = "kernel" ∧ ¬app = "system" := by
    simpa using hban
  simp [nanoProcessLine, hwk, hmic, hext, truthy, happ, hact, hb.1,
    hb.2.1, hb.2.2]

/-- Helper: a sweep never prints a start notification. -/
theorem sweep_no_starts (now : ℤ) (st : NanoState) (app : String) :
    (nanoSweep now st).2.countP (isStart app) = 0 := by
  simp only [nanoSweep, List.countP_map]
  apply List.countP_eq_zero.mpr
  intro p _
  simp [isStart, Function.comp]

/-- Helper: a sweep running no later than 10 seconds after an entry's
timestamp keeps that entry. -/
theorem sweep_keeps (now : ℤ) (st : NanoState) (app : String) (t : ℤ)
    (hmem : (app, t) ∈ st) (hle : now ≤ t + 10) :
    (app, t) ∈ (nanoSweep now st).1 := by
  simp only [nanoSweep]
  apply List.mem_filter.mpr
  refine ⟨hmem, ?_⟩
  simp only [Bool.not_eq_eq_eq_not, Bool.not_true, decide_eq_false_iff_not,
    not_lt]
  omega

/-- Helper: a chain of sweeps all scheduled within 10 seconds of a
session's timestamp keeps the session and prints no start
notification for its app. -/
theorem run_sweeps_keep (extract : String → Option String) (app : String)
    (t0 : ℤ) (sweeps : List ℤ) :
    ∀ st : NanoState, (app, t0) ∈ st → (∀ s ∈ sweeps, s ≤ t0 + 10) →
      (app, t0) ∈ (nanoRun extract (sweeps.map NanoOp.sweep) st).1 ∧
      (nanoRun extract (sweeps.map NanoOp.sweep) st).2.countP
        (isStart app) = 0 := by
  induction sweeps with
  | nil =>
    intro st hmem _
    simpa [nanoRun] using hmem
  | cons s rest ih =>
    intro st hmem hsw
    have hkeep := sweep_keeps s st app t0 hmem (hsw s (by simp))
    have hr := ih (nanoSweep s st).1 hkeep (fun x hx => hsw x (by simp [hx]))
    simp only [List.map_cons, nanoRun, nanoStep]
    exact ⟨hr.1, by rw [List.countP_append, sweep_no_starts, hr.2]⟩

/-- C4: applying the same qualifying start event for one identity twice
within the 1-second dedup scenario (any expiry passes between them
running within the 10-second threshold of the first event) yields
exactly one start notification (`nano.py` lines 104-111): the second,
repeated event finds the session active and is suppressed. -/
theorem C4_duplicate_start_suppressed (extract : String → Option String)
    (line app : String) (t0 t1 : ℤ) (sweeps : List ℤ) (st0 : NanoState)
    (hext : extract line = some app) (happ : (app != "") = true)
    (hban : (["tccd", "kernel", "system"].contains app) = false)
    (hwk : (containsSub line "com.apple.WebKit" &&
            containsSub line "GPU") = false)
    (hmic : (containsSub (lower line) "microphone" ||
             containsSub (lower line) "audio input") = true)
    (habs : hasKey app st0 = false)
    (hsw : ∀ s ∈ sweeps, s ≤ t0 + 10)
    (_h01 : t0 ≤ t1) (_h1w : t1 ≤ t0 + 1) :
    (nanoRun extract
      (NanoOp.log line t0 :: (sweeps.map NanoOp.sweep ++ [NanoOp.log line t1]))
      st0).2.countP (isStart app) = 1 := by
  simp only [nanoRun, nanoStep]
  rw [nanoProcessLine_starts extract line app t0 st0 hext happ hban hwk hmic
    habs]
  rw [nanoRun_append]
  have hmem : (app, t0) ∈ st0 ++ [(app, t0)] := by simp
  have hr := run_sweeps_keep extract app t0 sweeps (st0 ++ [(app, t0)]) hmem
    hsw
  have hact : hasKey app
      (nanoRun extract (sweeps.map NanoOp.sweep) (st0 ++ [(app, t0)])).1 =
        true := by
    simp only [hasKey, List.any_eq_true]
    exact ⟨(app, t0), hr.1, by simp⟩
  simp only [nanoRun, nanoStep]
  rw [nanoProcessLine_active_noop extract line app t1 _ hext happ hban hwk
    hmic hact]
  simp [List.countP_append, hr.2, List.countP_singleton, isStart]

/-- C4 witness: Zoom log lines at times 0 and 1, with a sweep at time 5
between them, produce exactly one start notification. -/
theorem C4_witness :
    (nanoRun extractZoom
      (NanoOp.log zoomLine 0 :: ([(5 : ℤ)].map NanoOp.sweep ++
        [NanoOp.log zoomLine 1])) []).2.countP (isStart "Zoom") = 1 :=
  C4_duplicate_start_suppressed extractZoom zoomLine "Zoom" 0 1 [5] []
    (by decide) (by decide) (by decide) (by decide) (by decide) (by decide)
    (by decide) (by decide) (by decide)

/-- Helper: a pid whose path resolves to a system process never enters
a poll snapshot set of `mic_monitor.py`. -/
theorem pollCurrent_excludes (procInfo : Nat → String × String) (pid : Nat)
    (raw : List Nat)
    (hsys : is_system_process (procInfo pid).2 = true) :
    pid ∉ pollCurrent procInfo raw := by
  intro h
  simp only [pollCurrent, List.mem_dedup, List.mem_filter] at h
  rw [hsys] at h
  simp at h

/-- Helper: every message of the poll diff carries a pid drawn from one
of the two snapshots. -/
theorem pollDiff_mentions (procInfo : Nat → String × String)
    (last current : List Nat) (m : QueueMsg)
    (hm : m ∈ pollDiff procInfo last current) :
    m.pid ∈ last ∨ m.pid ∈ current := by
  rcases List.mem_append.mp hm with hs | hs <;>
    rcases List.mem_map.mp hs with ⟨q, hqmem, hq⟩
  · right
    have : m.pid = q := by rw [← hq]
    rw [this]
    exact (List.mem_filter.mp hqmem).1
  · left
    have : m.pid = q := by rw [← hq]
    rw [this]
    exact (List.mem_filter.mp hqmem).1

/-- Helper: over any sequence of poll snapshots, a system-process pid
never enters the tracked snapshot set and is never mentioned by a
queued message, provided it is not tracked initially. -/
theorem micPollRun_system_free (procInfo : Nat → String × String)
    (pid : Nat) (hsys : is_system_process (procInfo pid).2 = true) :
    ∀ (snaps : List (List Nat)) (last : List Nat), pid ∉ last →
      pid ∉ (micPollRun procInfo snaps last).1 ∧
      (micPollRun procInfo snaps last).2.countP (mentionsPid pid) = 0 := by
  intro snaps
  induction snaps with
  | nil =>
    intro last h
    simpa [micPollRun] using h
  | cons snap rest ih =>
    intro last hlast
    have hcur : pid ∉ pollCurrent procInfo snap :=
      pollCurrent_excludes procInfo pid snap hsys
    have hdiff : (pollDiff procInfo last
        (pollCurrent procInfo snap)).countP (mentionsPid pid) = 0 := by
      apply List.countP_eq_zero.mpr
      intro m hm
      simp only [mentionsPid, beq_iff_eq]
      intro hp
      rcases pollDiff_mentions procInfo _ _ m hm with h | h <;> rw [hp] at h
      · exact hlast h
      · exact hcur h
    have hr := ih (pollCurrent procInfo snap) hcur
    simp only [micPollRun]
    exact ⟨hr.1, by rw [List.countP_append, hdiff, hr.2]⟩

/-- Helper: any message queued by the log path of `mic_monitor.py`
carries the pid its line matched, and that pid's path is not a system
process. -/
theorem micLogLine_pid (procInfo : Nat → String × String) (line : String)
    (m : QueueMsg) (hm : micLogLine procInfo line = some m) :
    findPid line.data = some m.pid ∧
    is_system_process (procInfo m.pid).2 = false := by
  unfold micLogLine at hm
  split at hm
  · exact absurd hm (by simp)
  · rename_i pid2 heq
    split at hm
    · dsimp only at hm
      split at hm
      · exact absurd hm (by simp)
      · rename_i hns
        rw [Option.some.injEq] at hm
        rw [← hm]
        exact ⟨heq, by simpa using hns⟩
    · exact absurd hm (by simp)

/-- C8: a subject whose process path matches one of the fixed
system-process markers is fully suppressed by `mic_monitor.py`: on the
poll path (`monitor_audio_devices` lines 131-135) it never enters the
tracked snapshot set and no queued message ever mentions it, and on the
log path (`monitor_system_logs` lines 100-103) no message for it is
ever queued. -/
theorem C8_system_process_suppressed (procInfo : Nat → String × String)
    (pid : Nat) (snaps : List (List Nat)) (line : String)
    (hsys : is_system_process (procInfo pid).2 = true) :
    (pid ∉ (micPollRun procInfo snaps []).1) ∧
    ((micPollRun procInfo snaps []).2.countP (mentionsPid pid) = 0) ∧
    (∀ m : QueueMsg, micLogLine procInfo line = some m → m.pid ≠ pid) := by
  refine ⟨(micPollRun_system_free procInfo pid hsys snaps [] (by simp)).1,
    (micPollRun_system_free procInfo pid hsys snaps [] (by simp)).2, ?_⟩
  intro m hm hmp
  have h2 := (micLogLine_pid procInfo line m hm).2
  rw [hmp] at h2
  rw [h2] at hsys
  exact absurd hsys (by simp)

/-- C8 witness: with every pid resolving to a system framework path, a
poll sequence that sees pid 5 queues no message mentioning it. -/
theorem C8_witness :
    (micPollRun procInfoSystem [[5], []] []).2.countP (mentionsPid 5) = 0 :=
  (C8_system_process_suppressed procInfoSystem 5 [[5], []] "x"
    (by decide)).2.1

/-- Helper: a Python dict assignment preserves the presence of every
key already present. -/
theorem dictSet_hasPid (st : List (Nat × String)) (pid pid2 : Nat)
    (app : String) (h : hasPid pid st = true) :
    hasPid pid (dictSet st pid2 app) = true := by
  unfold dictSet
  split
  · simp only [hasPid, List.any_eq_true] at h ⊢
    rcases h with ⟨p, hp, hpk⟩
    refine ⟨if p.1 == pid2 then (pid2, app) else p, List.mem_map.mpr ⟨p, hp, rfl⟩, ?_⟩
    by_cases hb : p.1 = pid2
    · have h2 : p.1 = pid := by simpa using hpk
      simp [hb, ← h2]
    · simpa [hb] using hpk
  · simp only [hasPid, List.any_append, List.any_eq_true, Bool.or_eq_true]
    left
    simpa [hasPid, List.any_eq_true] using h

/-- Helper: the new-pid phase of one `safari.py` poll never removes a
session and never prints a stop notification. -/
theorem foldPids_new_preserves (psComm psPpid : String → String)
    (pid : Nat) (pids : List Nat) :
    ∀ st, hasPid pid st = true →
      hasPid pid (foldPids (safariNewPid psComm psPpid) pids st).1 = true ∧
      (foldPids (safariNewPid psComm psPpid) pids st).2.countP
        (isStopFor pid) = 0 := by
  induction pids with
  | nil =>
    intro st h
    simpa [foldPids] using h
  | cons q rest ih =>
    intro st h
    have hstep : hasPid pid (safariNewPid psComm psPpid q st).1 = true ∧
        (safariNewPid psComm psPpid q st).2.countP (isStopFor pid) = 0 := by
      unfold safariNewPid
      split
      · exact ⟨h, rfl⟩
      · dsimp only
        split
        · constructor
          · simp only [hasPid, List.any_append, Bool.or_eq_true]
            left
            simpa [hasPid] using h
          · simp [isStopFor]
        · exact ⟨h, rfl⟩
    simp only [foldPids]
    have hr := ih _ hstep.1
    exact ⟨hr.1, by rw [List.countP_append, hstep.2, hr.2]⟩

/-- Helper: the stop phase of one `safari.py` poll, run over
disappeared pids not including the given one, keeps that pid's session
and prints no stop notification for it. -/
theorem foldPids_stop_preserves (pid : Nat) (pids : List Nat) :
    ∀ st, pid ∉ pids → hasPid pid st = true →
      hasPid pid (foldPids safariStopPid pids st).1 = true ∧
      (foldPids safariStopPid pids st).2.countP (isStopFor pid) = 0 := by
  induction pids with
  | nil =>
    intro st _ h
    simpa [foldPids] using h
  | cons q rest ih =>
    intro st hne h
    have hqp : q ≠ pid := by
      intro hq
      exact hne (by simp [hq])
    have hstep : hasPid pid (safariStopPid q st).1 = true ∧
        (safariStopPid q st).2.countP (isStopFor pid) = 0 := by
      unfold safariStopPid
      split
      · constructor
        · simp only [hasPid, List.any_eq_true] at h ⊢
          rcases h with ⟨r, hr, hrk⟩
          refine ⟨r, List.mem_filter.mpr ⟨hr, ?_⟩, hrk⟩
          have hr1 : r.1 = pid := by simpa using hrk
          simp [hr1, Ne.symm hqp]
        · simp [isStopFor, hqp]
      · exact ⟨h, rfl⟩
    simp only [foldPids]
    have hr := ih _ (fun hm => hne (List.mem_cons_of_mem q hm)) hstep.1
    exact ⟨hr.1, by rw [List.countP_append, hstep.2, hr.2]⟩

/-- Helper: one `safari.py` poll step over a snapshot not containing a
pid keeps that pid's session (if any), leaves it outside `last_check`,
and prints no stop for it, provided it was outside the previous
snapshot. -/
theorem safariPollStep_preserves (psComm psPpid : String → String)
    (raw : List Nat) (st : SafariState) (pid : Nat)
    (hraw : raw.contains pid = false)
    (hlast : st.last_check.contains pid = false)
    (hact : hasPid pid st.active_apps = true) :
    hasPid pid (safariPollStep psComm psPpid raw st).1.active_apps = true ∧
    (safariPollStep psComm psPpid raw st).1.last_check.contains pid
      = false ∧
    (safariPollStep psComm psPpid raw st).2.countP (isStopFor pid) = 0 := by
  have hstops : pid ∉ st.last_check.filter
      (fun q => !((raw.dedup).contains q)) := by
    intro hmem
    have h1 := (List.mem_filter.mp hmem).1
    simp only [List.contains, List.elem_eq_mem, decide_eq_false_iff_not]
      at hlast
    exact hlast h1
  unfold safariPollStep
  dsimp only
  have h1 := foldPids_new_preserves psComm psPpid pid
    ((raw.dedup).filter (fun q => !(st.last_check.contains q)))
    st.active_apps hact
  have h2 := foldPids_stop_preserves pid
    (st.last_check.filter (fun q => !((raw.dedup).contains q)))
    _ hstops h1.1
  refine ⟨h2.1, ?_, ?_⟩
  · simp only [List.contains, List.elem_eq_mem, decide_eq_false_iff_not,
      List.mem_dedup] at hraw ⊢
    exact hraw
  · rw [List.countP_append, h1.2, h2.2]

/-- Helper: one `safari.py` log step keeps every active session, leaves
`last_check` unchanged, and prints no stop notification. -/
theorem safariLogStep_preserves (psComm psPpid : String → String)
    (line : String) (st : SafariState) (pid : Nat)
    (hact : hasPid pid st.active_apps = true) :
    hasPid pid (safariLogStep psComm psPpid line st).1.active_apps = true ∧
    (safariLogStep psComm psPpid line st).1.last_check = st.last_check ∧
    (safariLogStep psComm psPpid line st).2.countP (isStopFor pid) = 0 := by
  unfold safariLogStep
  split
  · split
    · exact ⟨hact, rfl, rfl⟩
    · dsimp only
      split
      · exact ⟨dictSet_hasPid _ _ _ _ hact, rfl, by simp [isStopFor]⟩
      · exact ⟨hact, rfl, rfl⟩
  · exact ⟨hact, rfl, rfl⟩

/-- C10: in `safari.py` a stop notification arises only from the poll
diff, and there is no timeout-based expiry: a session for a pid that
appears in no poll snapshot (for example a session created solely from
a log event) stays in `active_apps` across any further operations and
never receives a stop notification. -/
theorem C10_log_only_session_never_stopped (psComm psPpid : String → String)
    (ops : List SafariOp) (st : SafariState) (pid : Nat)
    (hops : ops.any (opMentionsPid pid) = false)
    (hlast : st.last_check.contains pid = false)
    (hact : hasPid pid st.active_apps = true) :
    hasPid pid (safariRun psComm psPpid ops st).1.active_apps = true ∧
    (safariRun psComm psPpid ops st).1.last_check.contains pid = false ∧
    (safariRun psComm psPpid ops st).2.countP (isStopFor pid) = 0 := by
  induction ops generalizing st with
  | nil => exact ⟨hact, hlast, rfl⟩
  | cons op rest ih =>
    rw [List.any_cons, Bool.or_eq_false_iff] at hops
    cases op with
    | log line =>
      have hstep := safariLogStep_preserves psComm psPpid line st pid hact
      have hr := ih (safariLogStep psComm psPpid line st).1 hops.2
        (by rw [hstep.2.1]; exact hlast) hstep.1
      simp only [safariRun, safariStep]
      exact ⟨hr.1, hr.2.1,
        by rw [List.countP_append, hstep.2.2, hr.2.2]⟩
    | poll raw =>
      have hraw : raw.contains pid = false := by
        simpa [opMentionsPid] using hops.1
      have hstep := safariPollStep_preserves psComm psPpid raw st pid hraw
        hlast hact
      have hr := ih (safariPollStep psComm psPpid raw st).1 hops.2
        hstep.2.1 hstep.1
      simp only [safariRun, safariStep]
      exact ⟨hr.1, hr.2.1,
        by rw [List.countP_append, hstep.2.2, hr.2.2]⟩

/-- C10 witness: a session for pid 42 (created from a log event)
survives two polls that never see pid 42 and receives no stop. -/
theorem C10_witness :
    hasPid 42 (safariRun psCommZoom psPpidNone
      [SafariOp.poll [], SafariOp.poll [7]]
      ⟨[(42, "Zoom")], []⟩).1.active_apps = true ∧
    (safariRun psCommZoom psPpidNone
      [SafariOp.poll [], SafariOp.poll [7]]
      ⟨[(42, "Zoom")], []⟩).2.countP (isStopFor 42) = 0 :=
  ⟨(C10_log_only_session_never_stopped psCommZoom psPpidNone
      [SafariOp.poll [], SafariOp.poll [7]] ⟨[(42, "Zoom")], []⟩ 42
      (by decide) (by decide) (by decide)).1,
   (C10_log_only_session_never_stopped psCommZoom psPpidNone
      [SafariOp.poll [], SafariOp.poll [7]] ⟨[(42, "Zoom")], []⟩ 42
      (by decide) (by decide) (by decide)).2.2⟩

/-- Helper: projection of a notification stream distributes over
concatenation. -/
theorem projApp_append (app : String) (l1 l2 : List Notif) :
    projApp app (l1 ++ l2) = projApp app l1 ++ projApp app l2 := by
  simp [projApp]

/-- Helper: the previous flag is irrelevant once the stream is
nonempty. -/
theorem lastFlag_cons (prev b : Bool) (l : List Bool) :
    lastFlag prev (b :: l) = lastFlag b l := by
  cases l with
  | nil => rfl
  | cons c cs =>
    unfold lastFlag
    rw [List.getLast?_cons_cons]
    obtain ⟨x, hx⟩ := Option.isSome_iff_exists.mp
      (List.getLast?_isSome.mpr (by simp) :
        ((c :: cs).getLast?).isSome = true)
    rw [hx]
    rfl

/-- Helper: `okAfter` over a concatenation checks the first part, then
the second part starting from the first part's final flag. -/
theorem okAfter_append (prev : Bool) (l1 l2 : List Bool) :
    okAfter prev (l1 ++ l2) =
      (okAfter prev l1 && okAfter (lastFlag prev l1) l2) := by
  induction l1 generalizing prev with
  | nil => simp [okAfter, lastFlag]
  | cons b bs ih =>
    simp only [List.cons_append, okAfter, lastFlag_cons]
    by_cases h : (prev && b) = true
    · simp [h]
    · simp only [h, if_false, Bool.false_eq_true]
      exact ih b

/-- Helper: projecting the stop notifications printed by a sweep keeps
one `false` per expired entry of the app. -/
theorem projApp_map_stopped (app : String) (l : NanoState) :
    projApp app (l.map (fun p => Notif.stopped p.1)) =
      (l.filter (fun p => p.1 == app)).map (fun _ => false) := by
  induction l with
  | nil => rfl
  | cons q l ih =>
    by_cases h : q.1 = app
    · have h1 : projApp app ((q :: l).map (fun p => Notif.stopped p.1)) =
          false :: projApp app (l.map (fun p => Notif.stopped p.1)) := by
        simp [projApp, h]
      have h2 : (q :: l).filter (fun p => p.1 == app) =
          q :: l.filter (fun p => p.1 == app) :=
        List.filter_cons_of_pos (by simp [h])
      rw [h1, h2, List.map_cons, ih]
    · have h1 : projApp app ((q :: l).map (fun p => Notif.stopped p.1)) =
          projApp app (l.map (fun p => Notif.stopped p.1)) := by
        simp [projApp, h]
      have h2 : (q :: l).filter (fun p => p.1 == app) =
          l.filter (fun p => p.1 == app) :=
        List.filter_cons_of_neg (by simp [h])
      rw [h1, h2, ih]

/-- Helper: an absent key means no entry carries it. -/
theorem hasKey_false_not_mem (a : String) (l : NanoState)
    (h : hasKey a l = false) : a ∉ l.map Prod.fst := by
  simp only [hasKey, List.any_eq_false] at h
  intro hmem
  rcases List.mem_map.mp hmem with ⟨p, hp, hpa⟩
  exact h p hp (by simp [hpa])

/-- Helper: a present key is witnessed by an entry. -/
theorem hasKey_true_exists (a : String) (l : NanoState)
    (h : hasKey a l = true) : ∃ t : ℤ, (a, t) ∈ l := by
  simp only [hasKey, List.any_eq_true] at h
  rcases h with ⟨p, hp, hpa⟩
  have : p.1 = a := by simpa using hpa
  exact ⟨p.2, by rw [← this]; exact hp⟩

/-- Helper: in a key-nodup association list, filtering by the key of a
member yields exactly that member. -/
theorem filter_key_unique (l : NanoState) (hnd : (l.map Prod.fst).Nodup)
    (a : String) (t : ℤ) (hmem : (a, t) ∈ l) :
    l.filter (fun p => p.1 == a) = [(a, t)] := by
  induction l with
  | nil => simp at hmem
  | cons q l ih =>
    simp only [List.map_cons, List.nodup_cons] at hnd
    rcases List.mem_cons.mp hmem with hq | hq
    · rw [List.filter_cons_of_pos (by simp [← hq])]
      rw [← hq]
      have : l.filter (fun p => p.1 == a) = [] := by
        apply List.filter_eq_nil_iff.mpr
        intro p hp
        simp only [beq_iff_eq]
        intro hpa
        apply hnd.1
        have : q.1 = a := by rw [← hq]
        rw [this, ← hpa]
        exact List.mem_map_of_mem Prod.fst hp
      rw [this]
    · rw [List.filter_cons_of_neg]
      · exact ih hnd.2 hq
      · simp only [beq_iff_eq]
        intro hqa
        apply hnd.1
        rw [hqa]
        exact List.mem_map_of_mem Prod.fst hq

/-- Helper: one log line either changes nothing or starts exactly one
new session for a previously absent app, printing its start. -/
theorem nanoProcessLine_shape (extract : String → Option String)
    (line : String) (now : ℤ) (st : NanoState) :
    nanoProcessLine extract line now st = (st, []) ∨
    ∃ a, hasKey a st = false ∧
      nanoProcessLine extract line now st =
        (st ++ [(a, now)], [Notif.started a]) := by
  unfold nanoProcessLine
  split
  · exact Or.inl rfl
  · split
    · exact Or.inl rfl
    · dsimp only
      split
      · exact Or.inl rfl
      · rename_i app heq
        split
        · split
          · exact Or.inl rfl
          · rename_i hk
            exact Or.inr ⟨app, by simpa using hk, rfl⟩
        · exact Or.inl rfl

/-- Helper: one operation of `nano.py` preserves key-nodup session
state, extends any app's projected stream without consecutive starts,
and leaves the stream's final flag equal to the app's session
presence. -/
theorem nanoStep_proj (extract : String → Option String) (app : String)
    (op : NanoOp) (st : NanoState) (hnd : (st.map Prod.fst).Nodup) :
    ((nanoStep extract op st).1.map Prod.fst).Nodup ∧
    okAfter (hasKey app st) (projApp app (nanoStep extract op st).2)
      = true ∧
    lastFlag (hasKey app st) (projApp app (nanoStep extract op st).2) =
      hasKey app (nanoStep extract op st).1 := by
  cases op with
  | log line now =>
    rcases nanoProcessLine_shape extract line now st with h | ⟨a, ha, h⟩
    · simp only [nanoStep, h]
      exact ⟨hnd, rfl, rfl⟩
    · simp only [nanoStep, h]
      by_cases haa : a = app
      · subst haa
        refine ⟨?_, ?_, ?_⟩
        · simp only [List.map_append, List.map_cons, List.map_nil]
          rw [List.nodup_append]
          have hdisj : (st.map Prod.fst).Disjoint [a] := by
            intro x hx hxa
            rw [List.mem_singleton] at hxa
            rw [hxa] at hx
            exact hasKey_false_not_mem a st ha hx
          exact ⟨hnd, List.nodup_singleton a, hdisj⟩
        · rw [ha]
          simp [projApp, okAfter]
        · rw [ha]
          simp [projApp, lastFlag, hasKey, List.any_append]
      · refine ⟨?_, ?_, ?_⟩
        · simp only [List.map_append, List.map_cons, List.map_nil]
          rw [List.nodup_append]
          have hdisj : (st.map Prod.fst).Disjoint [a] := by
            intro x hx hxa
            rw [List.mem_singleton] at hxa
            rw [hxa] at hx
            exact hasKey_false_not_mem a st ha hx
          exact ⟨hnd, List.nodup_singleton a, hdisj⟩
        · simp [projApp, haa, okAfter]
        · have hp : projApp app [Notif.started a] = [] := by
            simp [projApp, haa]
          rw [hp]
          simp [lastFlag, hasKey, List.any_append, haa]
  | sweep now =>
    have hsub : ((nanoSweep now st).1.map Prod.fst).Nodup := by
      apply List.Nodup.sublist _ hnd
      exact List.Sublist.map Prod.fst (List.filter_sublist st)
    rw [show (nanoStep extract (NanoOp.sweep now) st) = nanoSweep now st
      from rfl]
    have hproj : projApp app (nanoSweep now st).2 =
        ((st.filter (fun p => decide (now - p.2 > 10))).filter
          (fun p => p.1 == app)).map (fun _ => false) := by
      simp only [nanoSweep]
      rw [projApp_map_stopped]
    by_cases hk : hasKey app st = true
    · obtain ⟨t, hmem⟩ := hasKey_true_exists app st hk
      have hukey := key_unique st hnd app t hmem
      by_cases hc : (decide (now - t > 10)) = true
      · have hfil : (st.filter (fun p => decide (now - p.2 > 10))).filter
            (fun p => p.1 == app) = [(app, t)] := by
          apply filter_key_unique
          · apply List.Nodup.sublist _ hnd
            exact List.Sublist.map Prod.fst (List.filter_sublist st)
          · exact List.mem_filter.mpr ⟨hmem, hc⟩
        rw [hproj, hfil]
        have habs : hasKey app (nanoSweep now st).1 = false := by
          rw [Bool.eq_false_iff]
          intro habs
          obtain ⟨t2, hmem2⟩ := hasKey_true_exists app _ habs
          have h2 := List.mem_filter.mp hmem2
          have : ((app, t2) : String × ℤ) = (app, t) :=
            hukey (app, t2) h2.1 rfl
          rw [this] at h2
          rw [hc] at h2
          simpa using h2.2
        rw [habs, hk]
        exact ⟨hsub, by simp [okAfter], by simp [lastFlag]⟩
      · have hfil : (st.filter (fun p => decide (now - p.2 > 10))).filter
            (fun p => p.1 == app) = [] := by
          apply List.filter_eq_nil_iff.mpr
          intro p hp
          have hpl := List.mem_filter.mp hp
          simp only [beq_iff_eq]
          intro hpa
          have hpt : p = (app, t) := hukey p hpl.1 hpa
          rw [hpt] at hpl
          exact hc hpl.2
        rw [hproj, hfil]
        have hkeep : hasKey app (nanoSweep now st).1 = true := by
          simp only [nanoSweep, hasKey, List.any_eq_true]
          refine ⟨(app, t), List.mem_filter.mpr ⟨hmem, ?_⟩, by simp⟩
          simp only [Bool.not_eq_true] at hc
          simp [hc]
        rw [hkeep, hk]
        exact ⟨hsub, rfl, rfl⟩
    · rw [Bool.not_eq_true] at hk
      have hfil : (st.filter (fun p => decide (now - p.2 > 10))).filter
          (fun p => p.1 == app) = [] := by
        apply List.filter_eq_nil_iff.mpr
        intro p hp
        have hpl := List.mem_filter.mp hp
        simp only [beq_iff_eq]
        intro hpa
        simp only [hasKey, List.any_eq_false] at hk
        exact hk p hpl.1 (by simp [hpa])
      rw [hproj, hfil]
      have habs : hasKey app (nanoSweep now st).1 = false := by
        simp only [nanoSweep]
        exact hasKey_filter_false app _ st hk
      rw [habs, hk]
      exact ⟨hsub, rfl, rfl⟩

/-- Helper: over any run of `nano.py` from a key-nodup state, an app's
projected notification stream extends its current session flag without
two consecutive starts. -/
theorem nanoRun_okAfter (extract : String → Option String) (app : String)
    (ops : List NanoOp) :
    ∀ st : NanoState, (st.map Prod.fst).Nodup →
      okAfter (hasKey app st) (projApp app (nanoRun extract ops st).2)
        = true := by
  induction ops with
  | nil => intro st _; rfl
  | cons op rest ih =>
    intro st hnd
    have hstep := nanoStep_proj extract app op st hnd
    simp only [nanoRun]
    rw [projApp_append, okAfter_append, hstep.2.2]
    rw [Bool.and_eq_true]
    exact ⟨hstep.2.1, ih _ hstep.1⟩

/-- C1 counterexample: in `mic_monitor.py` the log path
(`monitor_system_logs`, lines 96-113) queues an `access` message for
every matching line, each displayed as a start notification, with no
session tracking: two identical lines for the same subject print two
start notifications with no stop between them, so the claim fails as
stated for this file. -/
theorem C1_counterexample :
    noTwoStarts (projAppP "Zoom"
      (micLogRun procInfoZoom [micPidLine, micPidLine])) = false := by
  decide

/-- C1 (amended): in `nano.py` (`monitor_microphone_logs`, lines
104-111) the property holds: for every subject, between a start
notification and the next stop notification for that subject at most
one start is emitted — the projected stream of any app over any run
from the empty state never contains two starts without an intervening
stop. -/
theorem C1_nano_no_duplicate_starts (extract : String → Option String)
    (app : String) (ops : List NanoOp) :
    noTwoStarts (projApp app (nanoRun extract ops []).2) = true := by
  have h := nanoRun_okAfter extract app ops [] (by simp)
  simpa [noTwoStarts, hasKey] using h

end MicMon
